import Mathlib

/-!
# ypfs: a pass-through FUSE filesystem (`src/ypfs.c`)

A shallow embedding of the handlers of `ypfs.c` and the properties of its
specification that concern them.

* C strings are lists of characters; the string a `char *` denotes is the run of
  characters before the first NUL (`cstr`).
* A `char buf[N]` that is only ever written by `strcpy`/`strncat` is modelled by its
  capacity `N` and the C string it holds; a write past the capacity is undefined
  behaviour in C and is the result `none` here.
* The backing store (the host's system calls) is an arbitrary deterministic
  environment `Backing`: given the calls issued so far and the next call it yields
  an `Outcome`.  The state `Sys` threads `errno`, the log of calls issued and the
  table of open descriptors through every handler.
-/

namespace Ypfs

/-! ## Platform constants (`<limits.h>`, `<errno.h>`, `<fcntl.h>`, `<sys/stat.h>`, Linux values) -/

/-- The constant `PATH_MAX` of `<limits.h>`. -/
def PATH_MAX : Nat := 4096

def ENOENT : Int := 2
def ENOSPC : Int := 28
def EBADF : Int := 9
def ENOMEM : Int := 12
def ENOTEMPTY : Int := 39

def O_RDONLY : Nat := 0
def O_WRONLY : Nat := 1
def O_CREAT : Nat := 0o100
def O_EXCL : Nat := 0o200
def O_TRUNC : Nat := 0o1000

def S_IFMT : Nat := 0o170000
def S_IFREG : Nat := 0o100000
def S_IFIFO : Nat := 0o010000

/-- The macro `S_ISREG(m)`: `((m) & S_IFMT) == S_IFREG`. -/
def S_ISREG (m : Nat) : Bool := (m &&& S_IFMT) == S_IFREG

/-- The macro `S_ISFIFO(m)`: `((m) & S_IFMT) == S_IFIFO`. -/
def S_ISFIFO (m : Nat) : Bool := (m &&& S_IFMT) == S_IFIFO

/-! ## Machine integers -/

/-- Conversion of an integer value to C `int` (32 bits, two's complement). -/
def toInt32 (x : Int) : Int := (x + 2 ^ 31) % 2 ^ 32 - 2 ^ 31

/-- Conversion of an integer value to `uint64_t` (the type of `fi->fh`). -/
def toUInt64 (x : Int) : Nat := (x % 2 ^ 64).toNat

/-! ## C strings -/

/-- The terminating character of a C string. -/
def NUL : Char := Char.ofNat 0

/-- The C string found at a `char *`: the characters before the first NUL. -/
def cstr (s : List Char) : List Char := s.takeWhile (fun c => c != NUL)

/-- The call `strcpy(dst, src)` into an array of `cap` characters: `dst` then holds the
string `src`; copying more than `cap` characters (terminator included) overruns it. -/
def strcpy (cap : Nat) (src : List Char) : Option (List Char) :=
  if (cstr src).length + 1 ≤ cap then some (cstr src) else none

/-- The call `strncat(dst, src, n)` on an array of `cap` characters holding the string
`dst`: at most `n` characters of `src` are appended, then a NUL; the array is overrun
when the result with its terminator needs more than `cap` characters. -/
def strncat (cap : Nat) (dst : List Char) (src : List Char) (n : Nat) : Option (List Char) :=
  if dst.length + ((cstr src).take n).length + 1 ≤ cap then
    some (dst ++ (cstr src).take n)
  else none

/-- Modelled from the spec: `struct ypfs_state` of `params.h` (not in the sources), the
MountState of the specification, whose one attribute used by the handlers is the
backing root, reached in C through the macro `YPFS_DATA`. -/
structure ypfs_state where
  rootdir : List Char

/-- The function `ypfs_fullpath(fpath, path)` with `char fpath[PATH_MAX]`:
`strcpy(fpath, YPFS_DATA->rootdir); strncat(fpath, path, PATH_MAX);`.
The result is the string left in `fpath`, or `none` when the array is overrun
(the function is `void`: it reports nothing to its caller). -/
def ypfs_fullpath (st : ypfs_state) (path : List Char) : Option (List Char) :=
  (strcpy PATH_MAX st.rootdir).bind fun fpath => strncat PATH_MAX fpath path PATH_MAX

/-! ## The backing store -/

/-- A call of a backing-store primitive (a system call or libc function), with the
arguments the handler passes.  Buffers that the primitive only fills (`statbuf`, the
`buf` of `pread`, ...) are not part of the call. -/
inductive Call where
  | lstat (path : List Char)
  | open_ (path : List Char) (flags : Nat)
  | open3 (path : List Char) (flags : Nat) (mode : Nat)
  | creat (path : List Char) (mode : Nat)
  | close (fd : Int)
  | mkfifo (path : List Char) (mode : Nat)
  | mknod (path : List Char) (mode : Nat) (dev : Nat)
  | mkdir (path : List Char) (mode : Nat)
  | unlink (path : List Char)
  | rmdir (path : List Char)
  | symlink (target : List Char) (linkpath : List Char)
  | rename (oldpath : List Char) (newpath : List Char)
  | link (oldpath : List Char) (newpath : List Char)
  | chmod (path : List Char) (mode : Nat)
  | chown (path : List Char) (uid : Nat) (gid : Nat)
  | truncate (path : List Char) (length : Int)
  | utime (path : List Char) (times : Option (Int × Int))
  | readlink (path : List Char) (size : Nat)
  | pread (fd : Int) (size : Nat) (offset : Int)
  | pwrite (fd : Int) (buf : List Char) (size : Nat) (offset : Int)
  | statvfs (path : List Char)
  | fdatasync (fd : Int)
  | fsync (fd : Int)
  | lsetxattr (path : List Char) (name : List Char) (value : List Char) (size : Nat) (flags : Nat)
  | lgetxattr (path : List Char) (name : List Char) (size : Nat)
  | llistxattr (path : List Char) (size : Nat)
  | lremovexattr (path : List Char) (name : List Char)
  | closedir (dirp : Nat)
  | access (path : List Char) (mask : Nat)
  | ftruncate (fd : Int) (length : Int)
  | fstat (fd : Int)
  deriving DecidableEq

/-- What the backing store does with a call: it succeeds, with a payload `v` (the new
descriptor, the byte count, ...), or it fails with the platform error code `E`. -/
inductive Outcome where
  | ok (v : Nat)
  | fail (E : Int)
  deriving DecidableEq

/-- The backing store: any deterministic environment, answering a call in view of the
calls issued before it. -/
abbrev Backing := List Call → Call → Outcome

/-- The return value of a successful call whose payload is `v`: the payload for the
primitives that return a descriptor or a count, and `0` for all the others. -/
def Call.value (c : Call) (v : Nat) : Int :=
  match c with
  | .open_ _ _ => v
  | .open3 _ _ _ => v
  | .creat _ _ => v
  | .readlink _ _ => v
  | .pread _ _ _ => v
  | .pwrite _ _ _ _ => v
  | .lgetxattr _ _ _ => v
  | .llistxattr _ _ => v
  | _ => 0

/-- The table of open descriptors after a call: a successful `open`/`creat` adds the
descriptor it returns; `close` releases its descriptor (on Linux also when it reports
an error); no other call changes the table. -/
def Call.fdsAfter (c : Call) (o : Outcome) (fds : List Int) : List Int :=
  match c, o with
  | .open_ _ _, .ok v => (v : Int) :: fds
  | .open3 _ _ _, .ok v => (v : Int) :: fds
  | .creat _ _, .ok v => (v : Int) :: fds
  | .close fd, _ => fds.erase fd
  | _, _ => fds

/-- The part of the process state the handlers depend on or change: `errno`, the log of
backing-store calls issued so far (oldest first) and the open file descriptors. -/
structure Sys where
  errno : Int
  trace : List Call
  fds : List Int
  deriving DecidableEq

/-- Issue the call `c`: the return value seen by the C code and the state after it.
A failing call returns `-1` and sets `errno`; a successful one leaves `errno` alone. -/
def Sys.call (env : Backing) (s : Sys) (c : Call) : Int × Sys :=
  match env s.trace c with
  | .ok v =>
    (c.value v, { errno := s.errno, trace := s.trace ++ [c], fds := c.fdsAfter (.ok v) s.fds })
  | .fail E =>
    (-1, { errno := E, trace := s.trace ++ [c], fds := c.fdsAfter (.fail E) s.fds })

/-- The fields of `struct fuse_file_info` the handlers use. -/
structure fuse_file_info where
  flags : Nat
  fh : Nat
  deriving DecidableEq

/-! ## The handlers -/

/-- The function `ypfs_error`: `int ret = -errno; return ret;`. -/
def ypfs_error (_str : String) (s : Sys) : Int := -s.errno

/-- The handler `ypfs_getattr`: `lstat`, translated when `retstat != 0`. -/
def ypfs_getattr (env : Backing) (st : ypfs_state) (s : Sys) (path : List Char) :
    Option (Int × Sys) :=
  (ypfs_fullpath st path).map fun fpath =>
    let r := s.call env (.lstat fpath)
    if r.1 ≠ 0 then (ypfs_error "ypfs_getattr lstat" r.2, r.2) else (r.1, r.2)

/-- The handler `ypfs_mknod`. -/
def ypfs_mknod (env : Backing) (st : ypfs_state) (s : Sys) (path : List Char)
    (mode : Nat) (dev : Nat) : Option (Int × Sys) :=
  (ypfs_fullpath st path).map fun fpath =>
    if S_ISREG mode then
      let r := s.call env (.open3 fpath (O_CREAT ||| O_EXCL ||| O_WRONLY) mode)
      if r.1 < 0 then (ypfs_error "ypfs_mknod open" r.2, r.2)
      else
        let r2 := r.2.call env (.close r.1)
        if r2.1 < 0 then (ypfs_error "ypfs_mknod close" r2.2, r2.2) else (r2.1, r2.2)
    else if S_ISFIFO mode then
      let r := s.call env (.mkfifo fpath mode)
      if r.1 < 0 then (ypfs_error "ypfs_mknod mkfifo" r.2, r.2) else (r.1, r.2)
    else
      let r := s.call env (.mknod fpath mode dev)
      if r.1 < 0 then (ypfs_error "ypfs_mknod mknod" r.2, r.2) else (r.1, r.2)

/-- The handler `ypfs_mkdir`. -/
def ypfs_mkdir (env : Backing) (st : ypfs_state) (s : Sys) (path : List Char) (mode : Nat) :
    Option (Int × Sys) :=
  (ypfs_fullpath st path).map fun fpath =>
    let r := s.call env (.mkdir fpath mode)
    if r.1 < 0 then (ypfs_error "ypfs_mkdir mkdir" r.2, r.2) else (r.1, r.2)

/-- The handler `ypfs_unlink`. -/
def ypfs_unlink (env : Backing) (st : ypfs_state) (s : Sys) (path : List Char) :
    Option (Int × Sys) :=
  (ypfs_fullpath st path).map fun fpath =>
    let r := s.call env (.unlink fpath)
    if r.1 < 0 then (ypfs_error "ypfs_unlink unlink" r.2, r.2) else (r.1, r.2)

/-- The handler `ypfs_rmdir`. -/
def ypfs_rmdir (env : Backing) (st : ypfs_state) (s : Sys) (path : List Char) :
    Option (Int × Sys) :=
  (ypfs_fullpath st path).map fun fpath =>
    let r := s.call env (.rmdir fpath)
    if r.1 < 0 then (ypfs_error "ypfs_rmdir rmdir" r.2, r.2) else (r.1, r.2)

/-- The handler `ypfs_symlink`: `path` is left as it is, `link` is resolved. -/
def ypfs_symlink (env : Backing) (st : ypfs_state) (s : Sys) (path : List Char)
    (link : List Char) : Option (Int × Sys) :=
  (ypfs_fullpath st link).map fun flink =>
    let r := s.call env (.symlink path flink)
    if r.1 < 0 then (ypfs_error "ypfs_symlink symlink" r.2, r.2) else (r.1, r.2)

/-- The handler `ypfs_rename`. -/
def ypfs_rename (env : Backing) (st : ypfs_state) (s : Sys) (path : List Char)
    (newpath : List Char) : Option (Int × Sys) :=
  (ypfs_fullpath st path).bind fun fpath =>
    (ypfs_fullpath st newpath).map fun fnewpath =>
      let r := s.call env (.rename fpath fnewpath)
      if r.1 < 0 then (ypfs_error "ypfs_rename rename" r.2, r.2) else (r.1, r.2)

/-- The handler `ypfs_link`. -/
def ypfs_link (env : Backing) (st : ypfs_state) (s : Sys) (path : List Char)
    (newpath : List Char) : Option (Int × Sys) :=
  (ypfs_fullpath st path).bind fun fpath =>
    (ypfs_fullpath st newpath).map fun fnewpath =>
      let r := s.call env (.link fpath fnewpath)
      if r.1 < 0 then (ypfs_error "ypfs_link link" r.2, r.2) else (r.1, r.2)

/-- The handler `ypfs_chmod`. -/
def ypfs_chmod (env : Backing) (st : ypfs_state) (s : Sys) (path : List Char) (mode : Nat) :
    Option (Int × Sys) :=
  (ypfs_fullpath st path).map fun fpath =>
    let r := s.call env (.chmod fpath mode)
    if r.1 < 0 then (ypfs_error "ypfs_chmod chmod" r.2, r.2) else (r.1, r.2)

/-- The handler `ypfs_chown`. -/
def ypfs_chown (env : Backing) (st : ypfs_state) (s : Sys) (path : List Char)
    (uid : Nat) (gid : Nat) : Option (Int × Sys) :=
  (ypfs_fullpath st path).map fun fpath =>
    let r := s.call env (.chown fpath uid gid)
    if r.1 < 0 then (ypfs_error "ypfs_chown chown" r.2, r.2) else (r.1, r.2)

/-- The handler `ypfs_utime`. -/
def ypfs_utime (env : Backing) (st : ypfs_state) (s : Sys) (path : List Char)
    (ubuf : Option (Int × Int)) : Option (Int × Sys) :=
  (ypfs_fullpath st path).map fun fpath =>
    let r := s.call env (.utime fpath ubuf)
    if r.1 < 0 then (ypfs_error "ypfs_utime utime" r.2, r.2) else (r.1, r.2)

/-- The handler `ypfs_open`: the descriptor returned by `open` is stored in `fi->fh`
(an `int` converted to `uint64_t`); `retstat` is assigned on failure, and the function
ends with `return 0;`. -/
def ypfs_open (env : Backing) (st : ypfs_state) (s : Sys) (path : List Char)
    (fi : fuse_file_info) : Option (Int × fuse_file_info × Sys) :=
  (ypfs_fullpath st path).map fun fpath =>
    let r := s.call env (.open_ fpath fi.flags)
    let fd := r.1
    let _retstat : Int := if fd < 0 then ypfs_error "ypfs_open open" r.2 else 0
    (0, { flags := fi.flags, fh := toUInt64 fd }, r.2)

/-- The handler `ypfs_read`: `pread` on `fi->fh` (converted to `int`), its `ssize_t`
result stored in the `int retstat`. -/
def ypfs_read (env : Backing) (s : Sys) (size : Nat) (offset : Int) (fi : fuse_file_info) :
    Int × Sys :=
  let r := s.call env (.pread (toInt32 fi.fh) size offset)
  let retstat := toInt32 r.1
  if retstat < 0 then (ypfs_error "ypfs_read read" r.2, r.2) else (retstat, r.2)

/-- The handler `ypfs_write`: `pwrite` on `fi->fh`. -/
def ypfs_write (env : Backing) (s : Sys) (buf : List Char) (size : Nat) (offset : Int)
    (fi : fuse_file_info) : Int × Sys :=
  let r := s.call env (.pwrite (toInt32 fi.fh) buf size offset)
  let retstat := toInt32 r.1
  if retstat < 0 then (ypfs_error "ypfs_write pwrite" r.2, r.2) else (retstat, r.2)

/-- The handler `ypfs_statfs`. -/
def ypfs_statfs (env : Backing) (st : ypfs_state) (s : Sys) (path : List Char) :
    Option (Int × Sys) :=
  (ypfs_fullpath st path).map fun fpath =>
    let r := s.call env (.statvfs fpath)
    if r.1 < 0 then (ypfs_error "ypfs_statfs statvfs" r.2, r.2) else (r.1, r.2)

/-- The handler `ypfs_release`: `int retstat = 0; return retstat;`, nothing else. -/
def ypfs_release (s : Sys) (_path : List Char) (fi : fuse_file_info) :
    Int × fuse_file_info × Sys :=
  (0, fi, s)

/-- The handler `ypfs_fsync`: the result of `ypfs_error` is not assigned, the return
value is the one of `fdatasync`/`fsync`. -/
def ypfs_fsync (env : Backing) (s : Sys) (datasync : Int) (fi : fuse_file_info) : Int × Sys :=
  let r := if datasync ≠ 0 then s.call env (.fdatasync (toInt32 fi.fh))
           else s.call env (.fsync (toInt32 fi.fh))
  let _ignored : Int := if r.1 < 0 then ypfs_error "ypfs_fsync fsync" r.2 else 0
  (r.1, r.2)

/-- The handler `ypfs_setxattr`. -/
def ypfs_setxattr (env : Backing) (st : ypfs_state) (s : Sys) (path : List Char)
    (name : List Char) (value : List Char) (size : Nat) (flags : Nat) : Option (Int × Sys) :=
  (ypfs_fullpath st path).map fun fpath =>
    let r := s.call env (.lsetxattr fpath name value size flags)
    if r.1 < 0 then (ypfs_error "ypfs_setxattr lsetxattr" r.2, r.2) else (r.1, r.2)

/-- The handler `ypfs_getxattr`: the `ssize_t` of `lgetxattr` is stored in an `int`. -/
def ypfs_getxattr (env : Backing) (st : ypfs_state) (s : Sys) (path : List Char)
    (name : List Char) (size : Nat) : Option (Int × Sys) :=
  (ypfs_fullpath st path).map fun fpath =>
    let r := s.call env (.lgetxattr fpath name size)
    let retstat := toInt32 r.1
    if retstat < 0 then (ypfs_error "ypfs_getxattr lgetxattr" r.2, r.2) else (retstat, r.2)

/-- The handler `ypfs_listxattr`: the `ssize_t` of `llistxattr` is stored in an `int`. -/
def ypfs_listxattr (env : Backing) (st : ypfs_state) (s : Sys) (path : List Char)
    (size : Nat) : Option (Int × Sys) :=
  (ypfs_fullpath st path).map fun fpath =>
    let r := s.call env (.llistxattr fpath size)
    let retstat := toInt32 r.1
    if retstat < 0 then (ypfs_error "ypfs_listxattr llistxattr" r.2, r.2) else (retstat, r.2)

/-- The handler `ypfs_removexattr`. -/
def ypfs_removexattr (env : Backing) (st : ypfs_state) (s : Sys) (path : List Char)
    (name : List Char) : Option (Int × Sys) :=
  (ypfs_fullpath st path).map fun fpath =>
    let r := s.call env (.lremovexattr fpath name)
    if r.1 < 0 then (ypfs_error "ypfs_removexattr lrmovexattr" r.2, r.2) else (r.1, r.2)

/-- The handler `ypfs_releasedir`: `closedir` on the stream whose address is `fi->fh`,
its result dropped. -/
def ypfs_releasedir (env : Backing) (s : Sys) (_path : List Char) (fi : fuse_file_info) :
    Int × Sys :=
  let r := s.call env (.closedir fi.fh)
  (0, r.2)

/-- The handler `ypfs_access`. -/
def ypfs_access (env : Backing) (st : ypfs_state) (s : Sys) (path : List Char) (mask : Nat) :
    Option (Int × Sys) :=
  (ypfs_fullpath st path).map fun fpath =>
    let r := s.call env (.access fpath mask)
    if r.1 < 0 then (ypfs_error "ypfs_access access" r.2, r.2) else (r.1, r.2)

/-- The handler `ypfs_create`: `creat`, the descriptor stored in `fi->fh`, and
`return retstat;`. -/
def ypfs_create (env : Backing) (st : ypfs_state) (s : Sys) (path : List Char) (mode : Nat)
    (fi : fuse_file_info) : Option (Int × fuse_file_info × Sys) :=
  (ypfs_fullpath st path).map fun fpath =>
    let r := s.call env (.creat fpath mode)
    let fd := r.1
    let retstat : Int := if fd < 0 then ypfs_error "ypfs_create creat" r.2 else 0
    (retstat, { flags := fi.flags, fh := toUInt64 fd }, r.2)

/-- The handler `ypfs_ftruncate`. -/
def ypfs_ftruncate (env : Backing) (s : Sys) (offset : Int) (fi : fuse_file_info) : Int × Sys :=
  let r := s.call env (.ftruncate (toInt32 fi.fh) offset)
  if r.1 < 0 then (ypfs_error "ypfs_ftruncate ftruncate" r.2, r.2) else (r.1, r.2)

/-- The handler `ypfs_fgetattr`. -/
def ypfs_fgetattr (env : Backing) (s : Sys) (fi : fuse_file_info) : Int × Sys :=
  let r := s.call env (.fstat (toInt32 fi.fh))
  if r.1 < 0 then (ypfs_error "ypfs_fgetattr fstat" r.2, r.2) else (r.1, r.2)

/-- The handler `ypfs_readlink`: the `ssize_t` of `readlink` is stored in the `int
retstat`, which is translated on failure, and the function ends with `return 0;`. -/
def ypfs_readlink (env : Backing) (st : ypfs_state) (s : Sys) (path : List Char)
    (size : Nat) : Option (Int × Sys) :=
  (ypfs_fullpath st path).map fun fpath =>
    let r := s.call env (.readlink fpath size)
    let retstat := toInt32 r.1
    let _retstat : Int := if retstat < 0 then ypfs_error "ypfs_readlink readlink" r.2 else retstat
    (0, r.2)

/-- The handler `ypfs_truncate`: the result of `ypfs_error` is not assigned, the return
value is the one of `truncate`. -/
def ypfs_truncate (env : Backing) (st : ypfs_state) (s : Sys) (path : List Char)
    (newsize : Int) : Option (Int × Sys) :=
  (ypfs_fullpath st path).map fun fpath =>
    let r := s.call env (.truncate fpath newsize)
    let _ignored : Int := if r.1 < 0 then ypfs_error "ypfs_truncate truncate" r.2 else 0
    (r.1, r.2)

/-- The handler `ypfs_flush`: `int retstat = 0; return retstat;`, nothing else. -/
def ypfs_flush (s : Sys) (_path : List Char) (fi : fuse_file_info) :
    Int × fuse_file_info × Sys :=
  (0, fi, s)

/-! ## Directory streams -/

/-- What one `readdir` call on a directory stream yields: the next entry (its `d_name`)
or a failure with an error code. -/
inductive DirEvent where
  | entry (d_name : List Char)
  | error (E : Int)
  deriving DecidableEq

/-- The object behind a `DIR *`: what the coming `readdir` calls yield, in order; once
the list is used up every further call reports the end of the stream. -/
abbrev DIR := List DirEvent

/-- The call `readdir(dp)`: the entry or `NULL` (`none`), `errno` after the call, and the
stream after the call.  At the end of the stream `NULL` is returned and `errno` is not
changed; on a failure `NULL` is returned and `errno` is set. -/
def readdir (errno : Int) (dp : DIR) : Option (List Char) × Int × DIR :=
  match dp with
  | [] => (none, errno, [])
  | .entry d_name :: rest => (some d_name, errno, rest)
  | .error E :: rest => (none, E, rest)

/-- The type `fuse_fill_dir_t`: `int (*)(void *buf, const char *name, const struct stat
*stbuf, off_t off)`.  The sink owns the buffer, of any type `β`; it returns its status
and the buffer after the call.  `stbuf` is a pointer, `none` for `NULL`. -/
abbrev fuse_fill_dir_t (β : Type) := β → List Char → Option Nat → Int → Int × β

/-- The loop of `ypfs_readdir`,
`do { if (filler(buf, de->d_name, NULL, 0) != 0) return -ENOMEM; }
 while ((de = readdir(dp)) != NULL);` followed by `return retstat;` (`retstat` is `0`),
entered with the entry `d_name` in hand.  The three cases on `dp` are those of
`readdir`.  Result: return value, `errno`, stream and buffer. -/
def ypfs_readdir_loop {β : Type} (filler : fuse_fill_dir_t β) (errno : Int)
    (d_name : List Char) (dp : DIR) (buf : β) : Int × Int × DIR × β :=
  if (filler buf d_name none 0).1 ≠ 0 then (-ENOMEM, errno, dp, (filler buf d_name none 0).2)
  else
    match dp with
    | [] => (0, errno, [], (filler buf d_name none 0).2)
    | .entry next :: rest =>
      ypfs_readdir_loop filler errno next rest (filler buf d_name none 0).2
    | .error E :: rest => (0, E, rest, (filler buf d_name none 0).2)

/-- The handler `ypfs_readdir` on the stream `dp` that `fi->fh` points to: the first
`readdir`, `return -errno;` if it yields `NULL`, otherwise the loop.  The `offset`
argument is not used. -/
def ypfs_readdir {β : Type} (filler : fuse_fill_dir_t β) (errno : Int) (dp : DIR) (buf : β)
    (_offset : Int) : Int × Int × DIR × β :=
  match readdir errno dp with
  | (none, errno1, dp1) => (-errno1, errno1, dp1, buf)
  | (some d_name, errno1, dp1) => ypfs_readdir_loop filler errno1 d_name dp1 buf

/-! ## Requests for the single-primitive handlers -/

/-- A request for one of the handlers that consist of one backing-store primitive and
the translation of its result, with the arguments of the request. -/
inductive Request where
  | getattr (path : List Char)
  | mkdir (path : List Char) (mode : Nat)
  | unlink (path : List Char)
  | rmdir (path : List Char)
  | symlink (path : List Char) (link : List Char)
  | rename (path : List Char) (newpath : List Char)
  | link (path : List Char) (newpath : List Char)
  | chmod (path : List Char) (mode : Nat)
  | chown (path : List Char) (uid : Nat) (gid : Nat)
  | utime (path : List Char) (ubuf : Option (Int × Int))
  | statfs (path : List Char)
  | access (path : List Char) (mask : Nat)
  | setxattr (path : List Char) (name : List Char) (value : List Char) (size : Nat) (flags : Nat)
  | getxattr (path : List Char) (name : List Char) (size : Nat)
  | listxattr (path : List Char) (size : Nat)
  | removexattr (path : List Char) (name : List Char)
  | read (size : Nat) (offset : Int) (fi : fuse_file_info)
  | write (buf : List Char) (size : Nat) (offset : Int) (fi : fuse_file_info)
  | ftruncate (offset : Int) (fi : fuse_file_info)
  | fgetattr (fi : fuse_file_info)

/-- The entries of the table `ypfs_oper` for these requests: the handler that serves
each of them. -/
def Request.handle (env : Backing) (st : ypfs_state) (s : Sys) : Request → Option (Int × Sys)
  | .getattr path => ypfs_getattr env st s path
  | .mkdir path mode => ypfs_mkdir env st s path mode
  | .unlink path => ypfs_unlink env st s path
  | .rmdir path => ypfs_rmdir env st s path
  | .symlink path lnk => ypfs_symlink env st s path lnk
  | .rename path newpath => ypfs_rename env st s path newpath
  | .link path newpath => ypfs_link env st s path newpath
  | .chmod path mode => ypfs_chmod env st s path mode
  | .chown path uid gid => ypfs_chown env st s path uid gid
  | .utime path ubuf => ypfs_utime env st s path ubuf
  | .statfs path => ypfs_statfs env st s path
  | .access path mask => ypfs_access env st s path mask
  | .setxattr path name value size flags => ypfs_setxattr env st s path name value size flags
  | .getxattr path name size => ypfs_getxattr env st s path name size
  | .listxattr path size => ypfs_listxattr env st s path size
  | .removexattr path name => ypfs_removexattr env st s path name
  | .read size offset fi => some (ypfs_read env s size offset fi)
  | .write buf size offset fi => some (ypfs_write env s buf size offset fi)
  | .ftruncate offset fi => some (ypfs_ftruncate env s offset fi)
  | .fgetattr fi => some (ypfs_fgetattr env s fi)

/-- The backing-store primitive that the specification assigns to each of these
requests, applied to the resolved path(s) or to the descriptor held in the handle;
`none` when a path does not resolve. -/
def Request.primitive (st : ypfs_state) : Request → Option Call
  | .getattr path => (ypfs_fullpath st path).map .lstat
  | .mkdir path mode => (ypfs_fullpath st path).map fun f => .mkdir f mode
  | .unlink path => (ypfs_fullpath st path).map .unlink
  | .rmdir path => (ypfs_fullpath st path).map .rmdir
  | .symlink path lnk => (ypfs_fullpath st lnk).map fun f => .symlink path f
  | .rename path newpath =>
    (ypfs_fullpath st path).bind fun f => (ypfs_fullpath st newpath).map fun g => .rename f g
  | .link path newpath =>
    (ypfs_fullpath st path).bind fun f => (ypfs_fullpath st newpath).map fun g => .link f g
  | .chmod path mode => (ypfs_fullpath st path).map fun f => .chmod f mode
  | .chown path uid gid => (ypfs_fullpath st path).map fun f => .chown f uid gid
  | .utime path ubuf => (ypfs_fullpath st path).map fun f => .utime f ubuf
  | .statfs path => (ypfs_fullpath st path).map .statvfs
  | .access path mask => (ypfs_fullpath st path).map fun f => .access f mask
  | .setxattr path name value size flags =>
    (ypfs_fullpath st path).map fun f => .lsetxattr f name value size flags
  | .getxattr path name size => (ypfs_fullpath st path).map fun f => .lgetxattr f name size
  | .listxattr path size => (ypfs_fullpath st path).map fun f => .llistxattr f size
  | .removexattr path name => (ypfs_fullpath st path).map fun f => .lremovexattr f name
  | .read size offset fi => some (.pread (toInt32 fi.fh) size offset)
  | .write buf size offset fi => some (.pwrite (toInt32 fi.fh) buf size offset)
  | .ftruncate offset fi => some (.ftruncate (toInt32 fi.fh) offset)
  | .fgetattr fi => some (.fstat (toInt32 fi.fh))

/-! ## Sample sinks and backing stores -/

/-- A sink that never reports a full buffer and keeps, in order, every call made to it:
the name, the `stbuf` pointer and the offset it was given. -/
def recordingSink : fuse_fill_dir_t (List (List Char × Option Nat × Int)) :=
  fun buf name stbuf off => (0, buf ++ [(name, stbuf, off)])

/-- A backing store in which `unlink` finds no file, `rmdir` finds its directory
non-empty, `pread` delivers two bytes and every other call succeeds. -/
def envMissing : Backing := fun _ c =>
  match c with
  | .unlink _ => .fail ENOENT
  | .rmdir _ => .fail ENOTEMPTY
  | .pread _ _ _ => .ok 2
  | _ => .ok 0

/-- A backing store in which no file can be opened (`open` fails with `ENOENT`) and
every other call succeeds. -/
def envNoFile : Backing := fun _ c =>
  match c with
  | .open_ _ _ => .fail ENOENT
  | _ => .ok 0

/-- A backing store in which `open` and `creat` return the descriptor 3, `pread` and
`pwrite` transfer two bytes and every other call succeeds. -/
def envFd3 : Backing := fun _ c =>
  match c with
  | .open_ _ _ => .ok 3
  | .open3 _ _ _ => .ok 3
  | .creat _ _ => .ok 3
  | .pread _ _ _ => .ok 2
  | .pwrite _ _ _ _ => .ok 2
  | _ => .ok 0

/-- A sink that keeps every call made to it, as `recordingSink` does, and reports a full
buffer (returns `1`) from its `k`-th call on. -/
def fullAtSink (k : Nat) : fuse_fill_dir_t (List (List Char × Option Nat × Int)) :=
  fun buf name stbuf off => (if buf.length + 1 < k then 0 else 1, buf ++ [(name, stbuf, off)])

/-- The buffer after the sink has been handed `names` one after the other, each with
`stbuf = NULL` and offset `0`. -/
def feed {β : Type} (filler : fuse_fill_dir_t β) (buf : β) (names : List (List Char)) : β :=
  names.foldl (fun b n => (filler b n none 0).2) buf

/-- The state reached from `s` by `n` calls of `ypfs_flush` on the handle `fi`. -/
def flushTimes (path : List Char) (fi : fuse_file_info) : Nat → Sys → Sys
  | 0, s => s
  | n + 1, s => flushTimes path fi n (ypfs_flush s path fi).2.2

/-- A backing store in which `readlink` and `truncate` find no file (`ENOENT`), `fsync`
and `fdatasync` fail with `ENOSPC`, and every other call succeeds. -/
def envFailing : Backing := fun _ c =>
  match c with
  | .readlink _ _ => .fail ENOENT
  | .truncate _ _ => .fail ENOENT
  | .fsync _ => .fail ENOSPC
  | .fdatasync _ => .fail ENOSPC
  | _ => .ok 0

/-! ## Lemmas on C strings -/

theorem cstr_eq_self {s : List Char} (h : NUL ∉ s) : cstr s = s := by
  unfold cstr
  rw [List.takeWhile_eq_self_iff]
  intro c hc
  have : c ≠ NUL := fun e => h (e ▸ hc)
  simpa using this

theorem ypfs_fullpath_fits (st : ypfs_state) (path : List Char)
    (hr : NUL ∉ st.rootdir) (hp : NUL ∉ path)
    (hlen : st.rootdir.length + path.length < PATH_MAX) :
    ypfs_fullpath st path = some (st.rootdir ++ path) := by
  have h1 : st.rootdir.length + 1 ≤ PATH_MAX := by omega
  have h2 : path.length ≤ PATH_MAX := by omega
  simp [ypfs_fullpath, strcpy, strncat, cstr_eq_self hr, cstr_eq_self hp, h1,
    List.take_of_length_le h2]
  omega

theorem ypfs_fullpath_overrun (st : ypfs_state) (path : List Char)
    (hr : NUL ∉ st.rootdir) (hp : NUL ∉ path)
    (hlen : PATH_MAX ≤ st.rootdir.length + path.length) :
    ypfs_fullpath st path = none := by
  simp only [ypfs_fullpath, strcpy, strncat, cstr_eq_self hr, cstr_eq_self hp]
  by_cases h1 : st.rootdir.length + 1 ≤ PATH_MAX
  · simp only [h1, if_true, Option.some_bind, List.length_take]
    rw [if_neg]
    omega
  · simp [h1]

/-! ## Path resolution -/

/-- C1: when the backing root and the virtual path are C strings whose lengths add up to
less than `PATH_MAX`, `ypfs_fullpath` leaves in `fpath` exactly the root followed by the
path (nothing inserted, nothing normalised, nothing looked up), and any two calls with
the same root and path leave the same string. -/
theorem ypfs_fullpath_concat (st : ypfs_state) (path : List Char)
    (hr : NUL ∉ st.rootdir) (hp : NUL ∉ path)
    (hlen : st.rootdir.length + path.length < PATH_MAX) :
    ypfs_fullpath st path = some (st.rootdir ++ path) ∧
    ∀ out1 out2, ypfs_fullpath st path = out1 → ypfs_fullpath st path = out2 → out1 = out2 :=
  ⟨ypfs_fullpath_fits st path hr hp hlen, fun _ _ h1 h2 => h1.symm.trans h2⟩

/-- C1 at the root `/data` and the path `/foo.txt`: the resolved path is
`/data/foo.txt`. -/
theorem ypfs_fullpath_concat_witness :
    (NUL ∉ "/data".data ∧ NUL ∉ "/foo.txt".data ∧
      "/data".data.length + "/foo.txt".data.length < PATH_MAX) ∧
    ypfs_fullpath ⟨"/data".data⟩ "/foo.txt".data = some "/data/foo.txt".data :=
  ⟨by decide,
   (ypfs_fullpath_concat ⟨"/data".data⟩ "/foo.txt".data (by decide) (by decide) (by decide)).1⟩

/-- C2: with the root `/data` and a virtual path of 4096 characters (`/` followed by
4095 times `a`), root and path together do not fit `char fpath[PATH_MAX]`:
`ypfs_fullpath` overruns the array (result `none`); it has no error to return, being
`void`, and it does not stop at the bound. -/
theorem ypfs_fullpath_overlong :
    ypfs_fullpath ⟨"/data".data⟩ ('/' :: List.replicate 4095 'a') = none := by
  apply ypfs_fullpath_overrun
  · decide
  · intro h
    rcases List.mem_cons.1 h with h | h
    · exact absurd h (by decide)
    · exact absurd (List.eq_of_mem_replicate h) (by decide)
  · simp only [List.length_cons, List.length_replicate]
    decide


/-! ## Error translation -/

theorem toInt32_of_nonneg {x : Int} (h0 : 0 ≤ x) (h1 : x < 2 ^ 31) : toInt32 x = x := by
  unfold toInt32
  omega

theorem toInt32_neg_one : toInt32 (-1) = -1 := by decide

theorem Call.value_nonneg (c : Call) (v : Nat) : 0 ≤ c.value v := by
  cases c <;> simp [Call.value]

theorem Sys.call_ok {env : Backing} {s : Sys} {c : Call} {v : Nat}
    (h : env s.trace c = .ok v) :
    s.call env c =
      (c.value v, ⟨s.errno, s.trace ++ [c], c.fdsAfter (.ok v) s.fds⟩) := by
  simp [Sys.call, h]

theorem Sys.call_fail {env : Backing} {s : Sys} {c : Call} {E : Int}
    (h : env s.trace c = .fail E) :
    s.call env c = (-1, ⟨E, s.trace ++ [c], c.fdsAfter (.fail E) s.fds⟩) := by
  simp [Sys.call, h]

theorem Request.handle_ok (env : Backing) (st : ypfs_state) (s : Sys) (req : Request)
    (c : Call) (hc : req.primitive st = some c) (v : Nat) (h : env s.trace c = .ok v)
    (hv : c.value v < 2 ^ 31) :
    req.handle env st s = some (c.value v, (s.call env c).2) := by
  have h0 := Call.value_nonneg c v
  cases req <;>
    simp only [Request.primitive, Option.map_eq_some', Option.bind_eq_some,
      Option.some.injEq] at hc
  case getxattr | listxattr =>
    obtain ⟨f, hf, rfl⟩ := hc
    simp only [Request.handle, ypfs_getxattr, ypfs_listxattr, hf, Sys.call_ok h,
      Option.map_some', toInt32_of_nonneg h0 hv]
    simp [not_lt.2 h0]
  case rename | link =>
    obtain ⟨f, hf, g, hg, rfl⟩ := hc
    simp [Request.handle, ypfs_rename, ypfs_link, hf, hg, Sys.call_ok h, Call.value]
  case read | write | ftruncate | fgetattr =>
    subst hc
    simp only [Request.handle, ypfs_read, ypfs_write, ypfs_ftruncate, ypfs_fgetattr,
      Sys.call_ok h, toInt32_of_nonneg h0 hv]
    simp [not_lt.2 h0]
  all_goals
    obtain ⟨f, hf, rfl⟩ := hc
    simp [Request.handle, ypfs_getattr, ypfs_mkdir, ypfs_unlink, ypfs_rmdir, ypfs_symlink,
      ypfs_chmod, ypfs_chown, ypfs_utime, ypfs_statfs, ypfs_access, ypfs_setxattr,
      ypfs_removexattr, hf, Sys.call_ok h, Call.value]

theorem Request.handle_fail (env : Backing) (st : ypfs_state) (s : Sys) (req : Request)
    (c : Call) (hc : req.primitive st = some c) (E : Int) (h : env s.trace c = .fail E) :
    req.handle env st s = some (-E, (s.call env c).2) := by
  cases req <;>
    simp only [Request.primitive, Option.map_eq_some', Option.bind_eq_some,
      Option.some.injEq] at hc
  case rename | link =>
    obtain ⟨f, hf, g, hg, rfl⟩ := hc
    simp [Request.handle, ypfs_rename, ypfs_link, hf, hg, Sys.call_fail h, ypfs_error]
  case read | write | ftruncate | fgetattr =>
    subst hc
    simp [Request.handle, ypfs_read, ypfs_write, ypfs_ftruncate, ypfs_fgetattr,
      Sys.call_fail h, ypfs_error, toInt32_neg_one]
  all_goals
    obtain ⟨f, hf, rfl⟩ := hc
    simp [Request.handle, ypfs_getattr, ypfs_mkdir, ypfs_unlink, ypfs_rmdir, ypfs_symlink,
      ypfs_chmod, ypfs_chown, ypfs_utime, ypfs_statfs, ypfs_access, ypfs_setxattr,
      ypfs_removexattr, ypfs_getxattr, ypfs_listxattr, hf, Sys.call_fail h, ypfs_error,
      toInt32_neg_one]

/-- C3: for each of the twenty single-primitive handlers (getattr, mkdir, unlink, rmdir,
symlink, rename, link, chmod, chown, utime, statfs, access, setxattr, getxattr,
listxattr, removexattr, read, write, ftruncate, fgetattr), with `c` its backing-store
primitive on the resolved path or on the handle's descriptor: if `c` succeeds the
handler returns the value `c` returned (a value that fits the handler's `int`), if `c`
fails with the error code `E` the handler returns `-E`, in both cases after that one
call; and two different error codes never give the same return value. -/
theorem handler_error_transparent (env : Backing) (st : ypfs_state) (s : Sys)
    (req : Request) (c : Call) (hc : req.primitive st = some c) :
    (∀ v, env s.trace c = .ok v → c.value v < 2 ^ 31 →
      req.handle env st s = some (c.value v, (s.call env c).2)) ∧
    (∀ E, env s.trace c = .fail E →
      req.handle env st s = some (-E, (s.call env c).2)) ∧
    (∀ (env2 : Backing) (E E2 : Int), env s.trace c = .fail E → env2 s.trace c = .fail E2 →
      E ≠ E2 →
      (req.handle env st s).map Prod.fst ≠ (req.handle env2 st s).map Prod.fst) := by
  refine ⟨fun v h hv => Request.handle_ok env st s req c hc v h hv,
    fun E h => Request.handle_fail env st s req c hc E h, ?_⟩
  intro env2 E E2 h h2 hne
  rw [Request.handle_fail env st s req c hc E h, Request.handle_fail env2 st s req c hc E2 h2]
  simpa using hne

/-- C3 on the root `/data`: `unlink("/missing.txt")` on a missing file returns `-ENOENT`,
`rmdir("/nonempty")` on a non-empty directory returns `-ENOTEMPTY`. -/
theorem handler_error_transparent_witness :
    ((Request.unlink "/missing.txt".data).primitive ⟨"/data".data⟩
        = some (.unlink "/data/missing.txt".data) ∧
      ((Request.unlink "/missing.txt".data).handle envMissing ⟨"/data".data⟩ ⟨0, [], []⟩).map
        Prod.fst = some (-ENOENT)) ∧
    ((Request.rmdir "/nonempty".data).primitive ⟨"/data".data⟩
        = some (.rmdir "/data/nonempty".data) ∧
      ((Request.rmdir "/nonempty".data).handle envMissing ⟨"/data".data⟩ ⟨0, [], []⟩).map
        Prod.fst = some (-ENOTEMPTY)) :=
  ⟨⟨by decide, by
      rw [(handler_error_transparent envMissing ⟨"/data".data⟩ ⟨0, [], []⟩
        (Request.unlink "/missing.txt".data) (.unlink "/data/missing.txt".data)
        (by decide)).2.1 ENOENT rfl]
      rfl⟩,
   ⟨by decide, by
      rw [(handler_error_transparent envMissing ⟨"/data".data⟩ ⟨0, [], []⟩
        (Request.rmdir "/nonempty".data) (.rmdir "/data/nonempty".data)
        (by decide)).2.1 ENOTEMPTY rfl]
      rfl⟩⟩

/-! ## Open, release and the handle -/

/-- C4: `open("/missing.txt", O_RDONLY)` on the root `/data` when the backing `open`
fails with `ENOENT`: `ypfs_open` returns `0`, not `-ENOENT`, and stores the failed
descriptor `-1`, converted to `uint64_t`, in `fi->fh`; `errno` holds `ENOENT`. -/
theorem ypfs_open_failure_returns_zero :
    ypfs_open envNoFile ⟨"/data".data⟩ ⟨0, [], []⟩ "/missing.txt".data ⟨O_RDONLY, 0⟩ =
      some (0, ⟨O_RDONLY, 2 ^ 64 - 1⟩,
        ⟨ENOENT, [.open_ "/data/missing.txt".data O_RDONLY], []⟩) := by
  decide

/-- C5: `open("/a.txt")` on the root `/data` yields the descriptor 3, stored in
`fi->fh`; the `release` that follows returns `0` and issues no backing-store call: the
log of calls holds the `open` alone, no `close`, and descriptor 3 is still open. -/
theorem ypfs_release_leaves_descriptor_open :
    (ypfs_open envFd3 ⟨"/data".data⟩ ⟨0, [], []⟩ "/a.txt".data ⟨O_RDONLY, 0⟩).map
        (fun r => ypfs_release r.2.2 "/a.txt".data r.2.1) =
      some (0, ⟨O_RDONLY, 3⟩, ⟨0, [.open_ "/data/a.txt".data O_RDONLY], [3]⟩) := by
  decide

/-- C6: after `open("/a.txt")` on the root `/data` (descriptor 3) and the `release` of
that handle, a `read` of two bytes on the same handle is not refused: it calls `pread`
on descriptor 3, which `release` left open, and returns the count `2`; a second
`release` returns `0`; neither reports an error. -/
theorem use_after_release_succeeds :
    (ypfs_open envFd3 ⟨"/data".data⟩ ⟨0, [], []⟩ "/a.txt".data ⟨O_RDONLY, 0⟩).map
        (fun r =>
          let released := ypfs_release r.2.2 "/a.txt".data r.2.1
          (ypfs_read envFd3 released.2.2 2 0 released.2.1,
           (ypfs_release released.2.2 "/a.txt".data released.2.1).1)) =
      some ((2, ⟨0, [.open_ "/data/a.txt".data O_RDONLY, .pread 3 2 0], [3]⟩), 0) := by
  decide

/-! ## Directory enumeration -/

theorem ypfs_readdir_loop_all {β : Type} (filler : fuse_fill_dir_t β) (errno : Int)
    (hsink : ∀ b n, (filler b n none 0).1 = 0) (rest : List (List Char)) :
    ∀ (d_name : List Char) (buf : β),
      ypfs_readdir_loop filler errno d_name (rest.map .entry) buf =
        (0, errno, [], (d_name :: rest).foldl (fun b n => (filler b n none 0).2) buf) := by
  induction rest with
  | nil =>
    intro d_name buf
    simp [ypfs_readdir_loop, hsink]
  | cons next rest ih =>
    intro d_name buf
    rw [List.map_cons, ypfs_readdir_loop]
    simp only [hsink, ne_eq, not_true_eq_false, if_false]
    rw [ih]
    rfl

theorem foldl_recordingSink (names : List (List Char)) :
    ∀ buf, names.foldl (fun b n => (recordingSink b n none 0).2) buf =
      buf ++ names.map fun n => (n, none, 0) := by
  induction names with
  | nil => intro buf; simp
  | cons n names ih =>
    intro buf
    rw [List.foldl_cons, ih]
    simp [recordingSink]

/-- C7: on a directory stream whose remaining entries are `names` (at least one), then
the end of the stream, and with a sink that never reports a full buffer, one
`ypfs_readdir` call returns `0`, leaves the stream at its end and `errno` untouched, and
has handed the names to the sink one after the other in stream order, each with
`stbuf = NULL` and offset `0`: the buffer is the one obtained by feeding `names` to the
sink in order, and the recording sink holds exactly `names`, once each. -/
theorem ypfs_readdir_complete {β : Type} (filler : fuse_fill_dir_t β) (errno : Int)
    (names : List (List Char)) (buf : β) (offset : Int) (hn : names ≠ [])
    (hsink : ∀ b n, (filler b n none 0).1 = 0) :
    ypfs_readdir filler errno (names.map .entry) buf offset =
      (0, errno, [], names.foldl (fun b n => (filler b n none 0).2) buf) ∧
    ypfs_readdir recordingSink errno (names.map .entry) [] offset =
      (0, errno, [], names.map fun n => (n, none, 0)) := by
  cases names with
  | nil => exact absurd rfl hn
  | cons d_name rest =>
    constructor
    · simp only [ypfs_readdir, readdir, List.map_cons]
      exact ypfs_readdir_loop_all filler errno hsink rest d_name buf
    · simp only [ypfs_readdir, readdir, List.map_cons]
      rw [ypfs_readdir_loop_all recordingSink errno (fun _ _ => rfl) rest d_name []]
      rw [foldl_recordingSink]
      simp

/-- C7 on a directory that contains `x` and `y`: the names handed to the sink are
`.`, `..`, `x` and `y`, once each, and the call returns `0`. -/
theorem ypfs_readdir_complete_witness :
    ([".".data, "..".data, "x".data, "y".data] ≠ [] ∧
      ∀ b n, (recordingSink b n none 0).1 = 0) ∧
    ypfs_readdir recordingSink 0
        ([".".data, "..".data, "x".data, "y".data].map .entry) [] 0 =
      (0, 0, [], [(".".data, none, 0), ("..".data, none, 0), ("x".data, none, 0),
        ("y".data, none, 0)]) :=
  ⟨⟨by decide, fun _ _ => rfl⟩,
   (ypfs_readdir_complete recordingSink 0 [".".data, "..".data, "x".data, "y".data] [] 0
      (by decide) (fun _ _ => rfl)).2⟩

/-- C8, as stated, fails: with `errno = ENOENT` left by an earlier call, the first
`readdir` on a stream at its end reports the end of the stream (`NULL`, `errno` not
changed, no failure), and `ypfs_readdir` returns `-ENOENT`, a non-zero error. -/
theorem ypfs_readdir_end_of_stream_reports_stale_errno :
    readdir ENOENT [] = (none, ENOENT, []) ∧
    ypfs_readdir recordingSink ENOENT [] [] 0 = (-ENOENT, ENOENT, [], []) ∧
    -ENOENT ≠ 0 :=
  ⟨rfl, rfl, by decide⟩

/-- C8, amended: when the first `readdir` yields no entry, `ypfs_readdir` returns
`-errno` and never calls the sink (the buffer is unchanged): `-E` when that read failed
with the code `E`, and, when the stream was at its end, minus the value `errno` had on
entry, so `0` exactly when `errno` was `0` on entry. -/
theorem ypfs_readdir_first_read_null {β : Type} (filler : fuse_fill_dir_t β) (errno : Int)
    (buf : β) (offset : Int) :
    (∀ E rest, ypfs_readdir filler errno (.error E :: rest) buf offset = (-E, E, rest, buf)) ∧
    ypfs_readdir filler errno [] buf offset = (-errno, errno, [], buf) ∧
    ((ypfs_readdir filler errno [] buf offset).1 = 0 ↔ errno = 0) := by
  refine ⟨fun E rest => rfl, rfl, ?_⟩
  show -errno = 0 ↔ errno = 0
  omega

/-! ## Node creation -/

theorem S_ISREG_of_S_ISFIFO {mode : Nat} (h : S_ISFIFO mode = true) : S_ISREG mode = false := by
  simp only [S_ISFIFO, S_ISREG, beq_iff_eq] at h ⊢
  rw [h]
  decide

/-- C9: `ypfs_mknod` on a path that resolves to `fpath` issues the primitive of the
node kind and no other call.  Regular file: `open(fpath, O_CREAT | O_EXCL | O_WRONLY,
mode)`; if it fails with `E` the result is `-E`; if it returns `fd`, `close(fd)` follows
and the result is `0`, or `-E` when the close fails with `E`, and in both cases the
table of open descriptors is what it was before the call.  FIFO: `mkfifo(fpath, mode)`
alone.  Any other mode: `mknod(fpath, mode, dev)` alone.  In each branch a failure with
the code `E` gives `-E`. -/
theorem ypfs_mknod_by_kind (env : Backing) (st : ypfs_state) (s : Sys) (path : List Char)
    (mode dev : Nat) (fpath : List Char) (hf : ypfs_fullpath st path = some fpath) :
    (S_ISREG mode = true →
      (∀ E, env s.trace (.open3 fpath (O_CREAT ||| O_EXCL ||| O_WRONLY) mode) = .fail E →
        ypfs_mknod env st s path mode dev =
          some (-E, ⟨E, s.trace ++ [.open3 fpath (O_CREAT ||| O_EXCL ||| O_WRONLY) mode],
            s.fds⟩)) ∧
      (∀ fd, env s.trace (.open3 fpath (O_CREAT ||| O_EXCL ||| O_WRONLY) mode) = .ok fd →
        (∀ v, env (s.trace ++ [.open3 fpath (O_CREAT ||| O_EXCL ||| O_WRONLY) mode])
            (.close fd) = .ok v →
          ypfs_mknod env st s path mode dev =
            some (0, ⟨s.errno,
              s.trace ++ [.open3 fpath (O_CREAT ||| O_EXCL ||| O_WRONLY) mode, .close fd],
              s.fds⟩)) ∧
        (∀ E, env (s.trace ++ [.open3 fpath (O_CREAT ||| O_EXCL ||| O_WRONLY) mode])
            (.close fd) = .fail E →
          ypfs_mknod env st s path mode dev =
            some (-E, ⟨E,
              s.trace ++ [.open3 fpath (O_CREAT ||| O_EXCL ||| O_WRONLY) mode, .close fd],
              s.fds⟩)))) ∧
    (S_ISFIFO mode = true →
      (∀ v, env s.trace (.mkfifo fpath mode) = .ok v →
        ypfs_mknod env st s path mode dev =
          some (0, ⟨s.errno, s.trace ++ [.mkfifo fpath mode], s.fds⟩)) ∧
      (∀ E, env s.trace (.mkfifo fpath mode) = .fail E →
        ypfs_mknod env st s path mode dev =
          some (-E, ⟨E, s.trace ++ [.mkfifo fpath mode], s.fds⟩))) ∧
    (S_ISREG mode = false → S_ISFIFO mode = false →
      (∀ v, env s.trace (.mknod fpath mode dev) = .ok v →
        ypfs_mknod env st s path mode dev =
          some (0, ⟨s.errno, s.trace ++ [.mknod fpath mode dev], s.fds⟩)) ∧
      (∀ E, env s.trace (.mknod fpath mode dev) = .fail E →
        ypfs_mknod env st s path mode dev =
          some (-E, ⟨E, s.trace ++ [.mknod fpath mode dev], s.fds⟩))) := by
  refine ⟨fun hreg => ⟨?_, fun fd hopen => ⟨?_, ?_⟩⟩, fun hfifo => ⟨?_, ?_⟩,
    fun hreg hfifo => ⟨?_, ?_⟩⟩
  · intro E h
    simp [ypfs_mknod, hf, hreg, Sys.call_fail h, ypfs_error, Call.fdsAfter]
  · intro v h
    have h0 : ¬ ((fd : Int) < 0) := not_lt.2 (Int.ofNat_nonneg fd)
    have hclose := Sys.call_ok
      (s := ⟨s.errno, s.trace ++ [.open3 fpath (O_CREAT ||| O_EXCL ||| O_WRONLY) mode],
        (fd : Int) :: s.fds⟩) h
    simp [ypfs_mknod, hf, hreg, Sys.call_ok hopen, Call.value, h0, Call.fdsAfter] at hclose ⊢
    simp [hclose]
  · intro E h
    have h0 : ¬ ((fd : Int) < 0) := not_lt.2 (Int.ofNat_nonneg fd)
    have hclose := Sys.call_fail
      (s := ⟨s.errno, s.trace ++ [.open3 fpath (O_CREAT ||| O_EXCL ||| O_WRONLY) mode],
        (fd : Int) :: s.fds⟩) h
    simp [ypfs_mknod, hf, hreg, Sys.call_ok hopen, Call.value, h0, Call.fdsAfter] at hclose ⊢
    simp [hclose, ypfs_error]
  · intro v h
    simp [ypfs_mknod, hf, S_ISREG_of_S_ISFIFO hfifo, hfifo, Sys.call_ok h, Call.value,
      Call.fdsAfter]
  · intro E h
    simp [ypfs_mknod, hf, S_ISREG_of_S_ISFIFO hfifo, hfifo, Sys.call_fail h, ypfs_error,
      Call.fdsAfter]
  · intro v h
    simp [ypfs_mknod, hf, hreg, hfifo, Sys.call_ok h, Call.value, Call.fdsAfter]
  · intro E h
    simp [ypfs_mknod, hf, hreg, hfifo, Sys.call_fail h, ypfs_error, Call.fdsAfter]

/-- C9 on the root `/data`: creating the regular file `/new` with mode `0644` opens it
exclusively (descriptor 3), closes descriptor 3 and returns `0`, no descriptor left
open. -/
theorem ypfs_mknod_by_kind_witness :
    (ypfs_fullpath ⟨"/data".data⟩ "/new".data = some "/data/new".data ∧
      S_ISREG (S_IFREG ||| 0o644) = true) ∧
    ypfs_mknod envFd3 ⟨"/data".data⟩ ⟨0, [], []⟩ "/new".data (S_IFREG ||| 0o644) 0 =
      some (0, ⟨0, [.open3 "/data/new".data (O_CREAT ||| O_EXCL ||| O_WRONLY)
        (S_IFREG ||| 0o644), .close 3], []⟩) :=
  ⟨⟨by decide, by decide⟩,
   ((ypfs_mknod_by_kind envFd3 ⟨"/data".data⟩ ⟨0, [], []⟩ "/new".data (S_IFREG ||| 0o644) 0
      "/data/new".data (by decide)).1 (by decide)).2 3 rfl |>.1 0 rfl⟩

/-! ## The flags of open -/

theorem toUInt64_of_lt {v : Nat} (h : v < 2 ^ 64) : toUInt64 (v : Int) = v := by
  unfold toUInt64
  omega

/-- C10, as stated, fails: `open("/a.txt")` on the root `/data` with the flags
`O_WRONLY | O_TRUNC` is not rejected: `ypfs_open` calls the backing-store `open` with
these very flags, stores the descriptor 3 it returns in `fi->fh` and returns `0`. -/
theorem ypfs_open_accepts_truncation_flag :
    O_WRONLY ||| O_TRUNC ≠ O_WRONLY ∧
    ypfs_open envFd3 ⟨"/data".data⟩ ⟨0, [], []⟩ "/a.txt".data ⟨O_WRONLY ||| O_TRUNC, 0⟩ =
      some (0, ⟨O_WRONLY ||| O_TRUNC, 3⟩,
        ⟨0, [.open_ "/data/a.txt".data (O_WRONLY ||| O_TRUNC)], [3]⟩) := by
  decide

/-- C10, amended: `ypfs_open` does not look at the flags.  For every path that resolves
to `fpath` and every flags value, creation flags or not, it issues exactly one
backing-store call, `open(fpath, fi->flags)` with the flags as they came, and when that
call yields a descriptor it returns `0` with the descriptor in `fi->fh` and the flags in
`fi` unchanged. -/
theorem ypfs_open_passes_flags (env : Backing) (st : ypfs_state) (s : Sys) (path : List Char)
    (fi : fuse_file_info) (fpath : List Char) (hf : ypfs_fullpath st path = some fpath) :
    (ypfs_open env st s path fi).map (fun r => r.2.2.trace) =
      some (s.trace ++ [.open_ fpath fi.flags]) ∧
    (∀ fd, env s.trace (.open_ fpath fi.flags) = .ok fd → fd < 2 ^ 64 →
      ypfs_open env st s path fi =
        some (0, ⟨fi.flags, fd⟩,
          ⟨s.errno, s.trace ++ [.open_ fpath fi.flags], (fd : Int) :: s.fds⟩)) := by
  constructor
  · cases h : env s.trace (.open_ fpath fi.flags) with
    | ok v => simp [ypfs_open, hf, Sys.call_ok h]
    | fail E => simp [ypfs_open, hf, Sys.call_fail h]
  · intro fd h hfd
    simp [ypfs_open, hf, Sys.call_ok h, Call.value, Call.fdsAfter, toUInt64_of_lt hfd]

/-- C10, amended, on the root `/data`: the flags `O_WRONLY | O_CREAT | O_EXCL` reach the
backing-store `open` unchanged. -/
theorem ypfs_open_passes_flags_witness :
    ypfs_fullpath ⟨"/data".data⟩ "/b.txt".data = some "/data/b.txt".data ∧
    (ypfs_open envFd3 ⟨"/data".data⟩ ⟨0, [], []⟩ "/b.txt".data
        ⟨O_WRONLY ||| O_CREAT ||| O_EXCL, 0⟩).map (fun r => r.2.2.trace) =
      some [.open_ "/data/b.txt".data (O_WRONLY ||| O_CREAT ||| O_EXCL)] :=
  ⟨by decide,
   (ypfs_open_passes_flags envFd3 ⟨"/data".data⟩ ⟨0, [], []⟩ "/b.txt".data
      ⟨O_WRONLY ||| O_CREAT ||| O_EXCL, 0⟩ "/data/b.txt".data (by decide)).1⟩

/-! ## Handlers that lose the error code -/

/-- C11: on the root `/data`, when `readlink` and `truncate` fail with `ENOENT` and
`fsync` and `fdatasync` fail with `ENOSPC`: `ypfs_readlink` returns `0`, `ypfs_truncate`
returns `-1` and `ypfs_fsync` returns `-1` (with and without `datasync`), none of them
`-ENOENT` or `-ENOSPC`; `errno` alone holds the code. -/
theorem error_code_lost_by_readlink_truncate_fsync :
    ypfs_readlink envFailing ⟨"/data".data⟩ ⟨0, [], []⟩ "/missing".data 256 =
      some (0, ⟨ENOENT, [.readlink "/data/missing".data 256], []⟩) ∧
    ypfs_truncate envFailing ⟨"/data".data⟩ ⟨0, [], []⟩ "/missing".data 0 =
      some (-1, ⟨ENOENT, [.truncate "/data/missing".data 0], []⟩) ∧
    ypfs_fsync envFailing ⟨0, [], [3]⟩ 0 ⟨O_WRONLY, 3⟩ = (-1, ⟨ENOSPC, [.fsync 3], [3]⟩) ∧
    ypfs_fsync envFailing ⟨0, [], [3]⟩ 1 ⟨O_WRONLY, 3⟩ = (-1, ⟨ENOSPC, [.fdatasync 3], [3]⟩) ∧
    (0 : Int) ≠ -ENOENT ∧ (-1 : Int) ≠ -ENOENT ∧ (-1 : Int) ≠ -ENOSPC := by
  decide

/-! ## Flush -/

theorem flushTimes_eq (path : List Char) (fi : fuse_file_info) (n : Nat) :
    ∀ s, flushTimes path fi n s = s := by
  induction n with
  | zero => intro s; rfl
  | succ n ih => intro s; simp [flushTimes, ypfs_flush, ih]

/-- C12: for every path, handle and state, `ypfs_flush` returns `0` and gives back the
handle and the whole state as they were: no call is added to the log of backing-store
calls and the table of open descriptors is the same, the handle's descriptor included;
so after any number of flushes a `read` or a `write` on the handle gives the result it
gives with no flush at all. -/
theorem ypfs_flush_changes_nothing (env : Backing) (s : Sys) (path : List Char)
    (fi : fuse_file_info) :
    ypfs_flush s path fi = (0, fi, s) ∧
    (ypfs_flush s path fi).2.2.trace = s.trace ∧
    (ypfs_flush s path fi).2.2.fds = s.fds ∧
    (∀ n size offset,
      ypfs_read env (flushTimes path fi n s) size offset fi = ypfs_read env s size offset fi) ∧
    (∀ n buf size offset,
      ypfs_write env (flushTimes path fi n s) buf size offset fi =
        ypfs_write env s buf size offset fi) := by
  refine ⟨rfl, rfl, rfl, ?_, ?_⟩
  · intro n size offset
    rw [flushTimes_eq]
  · intro n buf size offset
    rw [flushTimes_eq]

/-! ## Directory enumeration into a sink that fills up -/

theorem ypfs_readdir_loop_full {β : Type} (filler : fuse_fill_dir_t β) (errno : Int)
    (last : List Char) (rest : DIR) (pre : List (List Char)) :
    ∀ (d_name : List Char) (buf : β),
      (filler buf d_name none 0).1 = 0 →
      (∀ i (h : i < pre.length),
        (filler (feed filler (filler buf d_name none 0).2 (pre.take i)) pre[i] none 0).1 = 0) →
      (filler (feed filler (filler buf d_name none 0).2 pre) last none 0).1 ≠ 0 →
      ypfs_readdir_loop filler errno d_name (pre.map .entry ++ .entry last :: rest) buf =
        (-ENOMEM, errno, rest,
          (filler (feed filler (filler buf d_name none 0).2 pre) last none 0).2) := by
  induction pre with
  | nil =>
    intro d_name buf h0 _ hfull
    simp only [feed, List.foldl_nil] at hfull
    rw [List.map_nil, List.nil_append, ypfs_readdir_loop]
    simp only [h0, ne_eq, not_true_eq_false, if_false]
    rw [ypfs_readdir_loop.eq_def]
    simp [hfull, feed]
  | cons next pre ih =>
    intro d_name buf h0 hpre hfull
    rw [List.map_cons, List.cons_append, ypfs_readdir_loop]
    simp only [h0, ne_eq, not_true_eq_false, if_false]
    have hnext := hpre 0 (Nat.succ_pos _)
    simp only [List.take_zero, feed, List.foldl_nil, List.getElem_cons_zero] at hnext
    rw [ih next (filler buf d_name none 0).2 hnext]
    · simp [feed]
    · intro i h
      have := hpre (i + 1) (Nat.succ_lt_succ h)
      simpa [feed] using this
    · simpa [feed] using hfull

theorem ypfs_readdir_full {β : Type} (filler : fuse_fill_dir_t β) (errno : Int)
    (pre : List (List Char)) (last : List Char) (rest : DIR) (buf : β) (offset : Int)
    (hpre : ∀ i (h : i < pre.length),
      (filler (feed filler buf (pre.take i)) pre[i] none 0).1 = 0)
    (hfull : (filler (feed filler buf pre) last none 0).1 ≠ 0) :
    ypfs_readdir filler errno (pre.map .entry ++ .entry last :: rest) buf offset =
      (-ENOMEM, errno, rest, feed filler buf (pre ++ [last])) := by
  cases pre with
  | nil =>
    simp only [feed, List.foldl_nil] at hfull
    simp only [ypfs_readdir, readdir, List.map_nil, List.nil_append]
    rw [ypfs_readdir_loop.eq_def]
    simp [hfull, feed]
  | cons d_name pre =>
    have h0 := hpre 0 (Nat.succ_pos _)
    simp only [List.take_zero, feed, List.foldl_nil, List.getElem_cons_zero] at h0
    simp only [ypfs_readdir, readdir, List.map_cons, List.cons_append]
    rw [ypfs_readdir_loop_full filler errno last rest pre d_name buf h0]
    · simp [feed]
    · intro i h
      have := hpre (i + 1) (Nat.succ_lt_succ h)
      simpa [feed] using this
    · simpa [feed] using hfull

theorem feed_fullAtSink (k : Nat) (names : List (List Char)) :
    ∀ buf, feed (fullAtSink k) buf names = buf ++ names.map fun n => (n, none, 0) := by
  induction names with
  | nil => intro buf; simp [feed]
  | cons n names ih =>
    intro buf
    have := ih (buf ++ [(n, none, 0)])
    simp only [feed] at this ⊢
    rw [List.foldl_cons]
    simp [fullAtSink] at this ⊢
    exact this

theorem ypfs_readdir_fullAtSink (errno : Int) (names : List (List Char)) (j : Nat)
    (offset : Int) (hj : j < names.length) :
    ypfs_readdir (fullAtSink (j + 1)) errno (names.map .entry) [] offset =
      (-ENOMEM, errno, (names.drop (j + 1)).map .entry,
        (names.take (j + 1)).map fun n => (n, none, 0)) := by
  have hnames : names = names.take j ++ names[j] :: names.drop (j + 1) := by
    rw [← List.drop_eq_getElem_cons hj, List.take_append_drop]
  have hsplit : names.map DirEvent.entry =
      (names.take j).map .entry ++ .entry names[j] :: (names.drop (j + 1)).map .entry := by
    have := congrArg (List.map DirEvent.entry) hnames
    simpa only [List.map_append, List.map_cons] using this
  have hlen : (names.take j).length = j := by
    rw [List.length_take]
    omega
  rw [hsplit, ypfs_readdir_full (fullAtSink (j + 1)) errno (names.take j) names[j]]
  · rw [feed_fullAtSink, ← List.take_concat_get names j hj]
    simp
  · intro i h
    rw [feed_fullAtSink]
    have hi : i < j := by omega
    simp [fullAtSink, List.length_take]
    omega
  · rw [feed_fullAtSink]
    simp [fullAtSink, hlen]
    omega

/-- C13: on a directory stream that yields the entries `pre`, then the entry `last`,
then whatever `rest` holds, with a sink that returns `0` on each entry of `pre` in turn
and a non-zero value on `last`, `ypfs_readdir` returns `-ENOMEM`, has handed the sink
exactly `pre` and then `last`, in order, each with `stbuf = NULL` and offset `0`, and
leaves `rest` unread in the stream; the result is the same for every `offset` argument.
With a recording sink that is full from its `j+1`-th call on, the calls recorded are
the first `j+1` names of the stream, once each, and the stream is left at the entries
after them. -/
theorem ypfs_readdir_stops_when_full {β : Type} (filler : fuse_fill_dir_t β) (errno : Int)
    (pre : List (List Char)) (last : List Char) (rest : DIR) (buf : β) (offset : Int)
    (hpre : ∀ i (h : i < pre.length),
      (filler (feed filler buf (pre.take i)) pre[i] none 0).1 = 0)
    (hfull : (filler (feed filler buf pre) last none 0).1 ≠ 0) :
    ypfs_readdir filler errno (pre.map .entry ++ .entry last :: rest) buf offset =
      (-ENOMEM, errno, rest, feed filler buf (pre ++ [last])) ∧
    (∀ offset2,
      ypfs_readdir filler errno (pre.map .entry ++ .entry last :: rest) buf offset2 =
        ypfs_readdir filler errno (pre.map .entry ++ .entry last :: rest) buf offset) ∧
    (∀ (names : List (List Char)) (j : Nat), j < names.length →
      ypfs_readdir (fullAtSink (j + 1)) errno (names.map .entry) [] offset =
        (-ENOMEM, errno, (names.drop (j + 1)).map .entry,
          (names.take (j + 1)).map fun n => (n, none, 0))) :=
  ⟨ypfs_readdir_full filler errno pre last rest buf offset hpre hfull,
   fun _ => rfl,
   fun names j hj => ypfs_readdir_fullAtSink errno names j offset hj⟩

/-- C13 on the stream `.`, `..`, `x`, `y` with a sink that is full at its second call:
the sink is handed `.` and `..`, the call returns `-ENOMEM`, and `x` and `y` are still
in the stream. -/
theorem ypfs_readdir_stops_when_full_witness :
    ((∀ i (h : i < [".".data].length),
        (fullAtSink 2 (feed (fullAtSink 2) [] ([".".data].take i)) [".".data][i] none 0).1 = 0) ∧
      (fullAtSink 2 (feed (fullAtSink 2) [] [".".data]) "..".data none 0).1 ≠ 0) ∧
    ypfs_readdir (fullAtSink 2) 0
        ([".".data].map .entry ++ .entry "..".data :: [.entry "x".data, .entry "y".data]) [] 7 =
      (-ENOMEM, 0, [.entry "x".data, .entry "y".data],
        [(".".data, none, 0), ("..".data, none, 0)]) :=
  ⟨⟨by decide, by decide⟩,
   (ypfs_readdir_stops_when_full (fullAtSink 2) 0 [".".data] "..".data
      [.entry "x".data, .entry "y".data] [] 7 (by decide) (by decide)).1⟩

end Ypfs
